import Mathlib

/-!
Verification development for the puppet-engine event dispatch and agent
scheduling engine.

The definitions below are shallow embeddings of the Python sources:
* `src/puppet-engine-py/src/core/models.py`   (`Event`)
* `src/puppet-engine-py/src/events/engine.py` (`EventEngine`, `EventPriority`)
* `src/marionette/events/router.py`           (`EventRouter`)
* `src/puppet-engine-py/src/agents/agent_manager.py` (`AgentManager`)
* `src/v1/src/core/types.py`                  (`Agent.update_mood`)

Timestamps and durations are rationals measured in seconds; datetime
arithmetic (`timedelta(hours=h)` = `h*3600` s, `timedelta(minutes=m)` =
`m*60` s) is translated accordingly.  Python `int(x)` on a non-negative
float is `⌊x⌋`.  Exceptions are modelled with `Except String`.
-/

namespace PuppetEngine

/-- Event model (`core/models.py`, class `Event`).  `data` is an opaque
payload (modelled as string key/value pairs); `created_at`/`processed_at`
are bookkeeping fields never read by the engine and are omitted.
`priority` follows the source encoding 0=low, 1=normal (default), 2=high,
3=critical. -/
structure Event where
  id : Option String := none
  type : String
  agent_id : Option String := none
  data : List (String × String) := []
  priority : Nat := 1
  scheduled_for : Option ℚ := none
deriving DecidableEq, Repr

/-- `events/engine.py`, enum `EventPriority`. -/
inductive EventPriority where
  | low
  | normal
  | high
  | critical
deriving DecidableEq, Repr

/-- Numeric values of the `EventPriority` enum members. -/
def EventPriority.value : EventPriority → Nat
  | .low => 0
  | .normal => 1
  | .high => 2
  | .critical => 3

/-- `events/engine.py`, class `EventEngine`: the mutable collections of the
bus.  The listener table is passed separately to the dispatch functions (it
is only written by `add_event_listener` before the loops run), and the
`is_processing` flag is represented by the loop functions themselves
running to completion over the queue they observe. -/
structure EventEngine where
  event_queue : List Event
  scheduled_events : List Event
  event_history : List Event
deriving DecidableEq, Repr

/-- `EventEngine.queue_event`. -/
def queue_event (s : EventEngine) (e : Event) : EventEngine :=
  { s with event_queue := s.event_queue ++ [e] }

/-- `EventEngine.schedule_event`. -/
def schedule_event (s : EventEngine) (e : Event) : EventEngine :=
  { s with scheduled_events := s.scheduled_events ++ [e] }

/-- The readiness test of `_check_scheduled_events`:
`e.scheduled_for and e.scheduled_for <= now`. -/
def isDue (now : ℚ) (e : Event) : Bool :=
  match e.scheduled_for with
  | some t => decide (t ≤ now)
  | none => false

/-- The promotion loop body of `_check_scheduled_events`:
`for event in ready: event_queue.append(event); scheduled_events.remove(event)`
(`list.remove` deletes the first equal element). -/
def promoteReady (s : EventEngine) (ready : List Event) : EventEngine :=
  ready.foldl
    (fun st e =>
      { st with
        event_queue := st.event_queue ++ [e]
        scheduled_events := st.scheduled_events.erase e })
    s

/-- One iteration of `EventEngine._check_scheduled_events` at time `now`. -/
def checkScheduledOnce (now : ℚ) (s : EventEngine) : EventEngine :=
  promoteReady s (s.scheduled_events.filter (isDue now))

/-- The history bookkeeping of `_process_events`:
`event_history.append(event)`, then
`if len(event_history) > 1000: event_history = event_history[-500:]`. -/
def recordHistory (s : EventEngine) (e : Event) : EventEngine :=
  let h := s.event_history ++ [e]
  { s with event_history := if 1000 < h.length then h.drop (h.length - 500) else h }

/-- The body of the `while` loop of `EventEngine._process_events`, iterated
until the observed queue is empty: `event = event_queue.pop(0)` then
dispatch then `recordHistory`.  Returns the sequence of events in dispatch
order together with the final state.  The first argument is the queue the
loop still has to drain (`s.event_queue` at the call site). -/
def drainQueueGo : List Event → EventEngine → List Event × EventEngine
  | [], s => ([], s)
  | e :: rest, s =>
    let p := drainQueueGo rest (recordHistory { s with event_queue := rest } e)
    (e :: p.1, p.2)

/-- Run `_process_events` until the live queue is empty; result: the events
in the order the loop dispatches them, and the final engine state. -/
def drainQueue (s : EventEngine) : List Event × EventEngine :=
  drainQueueGo s.event_queue s

/-- A listener (`engine.py`) / handler (`router.py`): invoked on an event,
either returns normally or raises (modelled as `Except.error msg`). -/
def Listener : Type := Event → Except String Unit

/-- `EventEngine._dispatch_event`: `for listener in listeners: await
listener(event)` with no `try`/`except` — the first exception aborts the
`for` loop and propagates to the caller. -/
def dispatchEvent (listeners : List Listener) (e : Event) : Except String Unit :=
  match listeners with
  | [] => .ok ()
  | l :: ls =>
    match l e with
    | .ok _ => dispatchEvent ls e
    | .error msg => .error msg

/-- Instrumentation of `_dispatch_event`: how many listeners of the list
are actually entered before the `for` loop ends (all of them when none
raises; the raising listener is the last one entered otherwise). -/
def dispatchInvoked (listeners : List Listener) (e : Event) : Nat :=
  match listeners with
  | [] => 0
  | l :: ls =>
    match l e with
    | .ok _ => dispatchInvoked ls e + 1
    | .error _ => 1

/-- `EventEngine._process_events` with listener dispatch: pop, dispatch
(an exception propagates out of the loop body and kills the task — there is
no `try`/`except` around `_dispatch_event`), record history, continue.
First argument as in `drainQueueGo`. -/
def processEventsGo (lf : String → List Listener) :
    List Event → EventEngine → Except String EventEngine
  | [], s => .ok s
  | e :: rest, s =>
    match dispatchEvent (lf e.type) e with
    | .error msg => .error msg
    | .ok _ => processEventsGo lf rest (recordHistory { s with event_queue := rest } e)

/-- Run `_process_events` over the live queue; `.error` means the loop task
died of an uncaught listener exception. -/
def processEvents (lf : String → List Listener) (s : EventEngine) :
    Except String EventEngine :=
  processEventsGo lf s.event_queue s

/-- `marionette/events/router.py`, `EventRouter._execute_handler`: the
handler call is wrapped in `try`/`except`, a raised exception is logged
(returned as `some msg`) and swallowed. -/
def routerExecuteHandler (h : Listener) (e : Event) : Option String :=
  match h e with
  | .ok _ => none
  | .error msg => some msg

/-- `EventRouter._process_events`, per-event part: every handler for the
event is executed through `_execute_handler`; the result collects the
per-handler logged errors. -/
def routerDispatchEvent (handlers : List Listener) (e : Event) : List (Option String) :=
  handlers.map (fun h => routerExecuteHandler h e)

/-- `EventRouter._process_events` over a queue of events: total — no
handler outcome can terminate the loop. -/
def routerProcessEvents (hf : String → List Listener) :
    List Event → List (List (Option String))
  | [] => []
  | e :: rest => routerDispatchEvent (hf e.type) e :: routerProcessEvents hf rest

/-- The four operations that touch the bus collections, for trace-based
statements: external enqueue, external schedule, one promotion-loop
iteration at a given time, one dispatch-loop pop. -/
inductive BusOp where
  | queue (e : Event)
  | schedule (e : Event)
  | check (now : ℚ)
  | pop
deriving DecidableEq

/-- Apply one `BusOp` to the engine state (dispatch effects of `pop` on
listeners are irrelevant to queue membership and are not tracked here). -/
def applyOp (s : EventEngine) : BusOp → EventEngine
  | .queue e => queue_event s e
  | .schedule e => schedule_event s e
  | .check now => checkScheduledOnce now s
  | .pop =>
    match s.event_queue with
    | [] => s
    | e :: rest => recordHistory { s with event_queue := rest } e

/-- The slice of an agent's configuration read by the scheduler
(`agent_manager.py`): `agent.is_active` and
`agent.behavior['post_frequency']` with source defaults 3 and 12 (the
source type hints are `int`). -/
structure AgentConfig where
  is_active : Bool := true
  min_hours_between_posts : ℤ := 3
  max_hours_between_posts : ℤ := 12
deriving DecidableEq, Repr

/-- The per-agent slice of `AgentManager` state for one fixed agent id:
`last_post_time[id]`, `next_post_times[id]`, the events this manager has
passed to `event_engine.schedule_event`, `api_error_counts.get(id, 0)` and
`api_cooldowns[id]`, plus the dedup set `processed_tweet_ids` and
invocation counts of the external collaborators (LLM generations, posting
calls, memory records) observed during the run. -/
structure MgrState where
  last_post_time : Option ℚ := none
  next_post_time : Option ℚ := none
  scheduled_events : List Event := []
  api_error_count : Nat := 0
  api_cooldown : Option ℚ := none
  processed_tweet_ids : List String := []
  llm_calls : Nat := 0
  post_calls : Nat := 0
  memory_records : Nat := 0
deriving DecidableEq, Repr

/-- `AgentManager._handle_api_error`: increment the error counter,
`cooldown_minutes = min(2 ** count, 60)` computed with the incremented
counter, cooldown end `now + cooldown_minutes` minutes. -/
def handleApiError (now : ℚ) (s : MgrState) : MgrState :=
  let count := s.api_error_count + 1
  let cooldown_minutes : Nat := min (2 ^ count) 60
  { s with
    api_error_count := count
    api_cooldown := some (now + cooldown_minutes * 60) }

/-- `AgentManager.schedule_next_post`: `delay_hours = random.uniform(min,
max)` is the nondeterministic parameter `delayHours`; `delay_seconds =
int(delay_hours * 3600)`; `next_post_time = utcnow() + delay_seconds`;
always writes `next_post_times[agent_id]`; appends one `agent_post` event
with `scheduled_for = next_post_time` via `event_engine.schedule_event`
when an event engine is wired (`hasEngine`).  The event's `data` carries
only the ISO rendering of the scheduled time, not tracked here. -/
def scheduleNextPost (agentId : String) (now delayHours : ℚ) (hasEngine : Bool)
    (s : MgrState) : MgrState :=
  let delay_seconds : ℤ := ⌊delayHours * 3600⌋
  let next_post_time : ℚ := now + delay_seconds
  let s1 := { s with next_post_time := some next_post_time }
  if hasEngine then
    { s1 with
      scheduled_events := s1.scheduled_events ++
        [{ type := "agent_post", agent_id := some agentId,
           scheduled_for := some next_post_time }] }
  else s1

/-- `AgentManager.schedule_agent_posts` (the spec's `schedule_next_post`
entry point): no-op when the agent is missing or inactive; when a last
post time is recorded and `now - last_post < timedelta(hours=min_hours)`,
no-op (still in cooldown); otherwise delegates to `schedule_next_post`. -/
def scheduleAgentPosts (agent : Option AgentConfig) (agentId : String)
    (now delayHours : ℚ) (hasEngine : Bool) (s : MgrState) : MgrState :=
  match agent with
  | none => s
  | some a =>
    if a.is_active = false then s
    else
      match s.last_post_time with
      | some last_post =>
        if now - last_post < (a.min_hours_between_posts : ℚ) * 3600 then s
        else scheduleNextPost agentId now delayHours hasEngine s
      | none => scheduleNextPost agentId now delayHours hasEngine s

/-- The collaborator wiring and failure injection for
`AgentManager.create_agent_post`: whether an LLM provider / Twitter client
/ memory store is wired, and whether the `generate_tweet` or `post_tweet`
call raises. -/
structure PostEnv where
  has_llm : Bool := true
  gen_fails : Bool := false
  has_twitter : Bool := true
  post_fails : Bool := false
  has_memory : Bool := true
  has_engine : Bool := true
deriving DecidableEq, Repr

/-- `AgentManager.create_agent_post`: return early when the agent is
missing/inactive or no LLM provider is available; `generate_tweet` (one
LLM call) sits inside the outer `try` only, so its exception is caught by
the outer `except` which merely logs; the posting block sits in the inner
`try`, whose `except` calls `_handle_api_error`; on success the manager
records `last_post_time = utcnow()`, stores a memory item and re-invokes
`schedule_agent_posts`. -/
def createAgentPost (agent : Option AgentConfig) (agentId : String)
    (env : PostEnv) (now delayHours : ℚ) (s : MgrState) : MgrState :=
  match agent with
  | none => s
  | some a =>
    if a.is_active = false then s
    else if env.has_llm = false then s
    else
      let s1 := { s with llm_calls := s.llm_calls + 1 }
      if env.gen_fails then s1
      else if env.has_twitter = false then s1
      else
        let s2 := { s1 with post_calls := s1.post_calls + 1 }
        if env.post_fails then handleApiError now s2
        else
          let s3 := { s2 with last_post_time := some now }
          let s4 :=
            if env.has_memory then { s3 with memory_records := s3.memory_records + 1 }
            else s3
          scheduleAgentPosts (some a) agentId now delayHours env.has_engine s4

/-- The collaborator wiring and failure injection for
`AgentManager.process_agent_reaction`: whether the agent exists and is
active, which collaborators are wired, and whether reply generation or
reply posting raises. -/
structure ReactionEnv where
  agent_exists : Bool := true
  is_active : Bool := true
  has_llm : Bool := true
  has_twitter : Bool := true
  has_memory : Bool := true
  gen_fails : Bool := false
  post_fails : Bool := false
deriving DecidableEq, Repr

/-- `AgentManager.process_agent_reaction`: return when the agent is
missing or inactive; return when the tweet id is falsy (`None` or `""`) or
already in `processed_tweet_ids`; otherwise add the id to the set first,
then fetch context, generate a reply (one LLM call, may raise — caught by
the enclosing `except`, which only logs), post it (one posting call, may
raise likewise) and store the exchange.  Nothing on any failure path
removes the id from the set. -/
def processAgentReaction (env : ReactionEnv) (tweetId : Option String)
    (s : MgrState) : MgrState :=
  if env.agent_exists = false ∨ env.is_active = false then s
  else
    match tweetId with
    | none => s
    | some tid =>
      if tid = "" ∨ tid ∈ s.processed_tweet_ids then s
      else
        let s1 := { s with processed_tweet_ids := s.processed_tweet_ids.insert tid }
        if env.has_llm = false then s1
        else
          let s2 := { s1 with llm_calls := s1.llm_calls + 1 }
          if env.gen_fails then s2
          else if env.has_twitter = false then s2
          else
            let s3 := { s2 with post_calls := s2.post_calls + 1 }
            if env.post_fails then s3
            else if env.has_memory then
              { s3 with memory_records := s3.memory_records + 1 }
            else s3

/-- Mood vector (`v1/src/core/types.py`, `Agent.current_mood`): valence,
arousal, dominance. -/
structure Mood where
  valence : ℚ
  arousal : ℚ
  dominance : ℚ
deriving DecidableEq, Repr

/-- `v1/src/core/types.py`, `Agent.update_mood`: each component is shifted
and clamped — valence to `[-1, 1]`, arousal and dominance to `[0, 1]`. -/
def update_mood (m : Mood) (valence_shift arousal_shift dominance_shift : ℚ) : Mood :=
  { valence := max (-1) (min 1 (m.valence + valence_shift))
    arousal := max 0 (min 1 (m.arousal + arousal_shift))
    dominance := max 0 (min 1 (m.dominance + dominance_shift)) }

/-- The `mood_event` arm of `AgentManager.process_agent_event`:
`agent.current_mood.update(event.data.get('mood', {}))` — a plain `dict`
update that overwrites each supplied component with the event's value, no
clamping.  The three standard keys are modelled; an absent key leaves the
component unchanged. -/
def moodEventUpdate (m : Mood) (valence arousal dominance : Option ℚ) : Mood :=
  { valence := valence.getD m.valence
    arousal := arousal.getD m.arousal
    dominance := dominance.getD m.dominance }

/-- The declared bounds of the mood components. -/
def moodInBounds (m : Mood) : Prop :=
  -1 ≤ m.valence ∧ m.valence ≤ 1 ∧
  0 ≤ m.arousal ∧ m.arousal ≤ 1 ∧
  0 ≤ m.dominance ∧ m.dominance ≤ 1

instance (m : Mood) : Decidable (moodInBounds m) := by
  unfold moodInBounds; infer_instance

/-! ## Helper lemmas -/

theorem drainQueueGo_fst (l : List Event) : ∀ s : EventEngine, (drainQueueGo l s).1 = l := by
  induction l with
  | nil => intro s; rfl
  | cons e rest ih => intro s; simp [drainQueueGo, ih]

/-- A low-priority and a critical-priority event of the same type, queued
low-first. -/
def eLowFirst : Event := { type := "tick", priority := EventPriority.low.value }

def eCriticalSecond : Event := { type := "tick", priority := EventPriority.critical.value }

/-! ## C1 -/

/-- C1: the claim says dispatch order respects priority tiers (critical
before normal before low).  The dispatch loop of
`EventEngine._process_events` pops `event_queue.pop(0)`: dispatch order is
exactly insertion order, so a critical event queued after a low event is
dispatched after it.  The spec itself flags this as a defect of the code
(§9, "Priority field present but unused for ordering"), so the code, not
the claim, is wrong. -/
theorem c1_dispatch_order_ignores_priority :
    (∀ s : EventEngine, (drainQueue s).1 = s.event_queue) ∧
    (drainQueue { event_queue := [eLowFirst, eCriticalSecond],
                  scheduled_events := [], event_history := [] }).1
      = [eLowFirst, eCriticalSecond] ∧
    eLowFirst.priority < eCriticalSecond.priority := by
  refine ⟨fun s => drainQueueGo_fst s.event_queue s, drainQueueGo_fst _ _, ?_⟩
  simp [eLowFirst, eCriticalSecond, EventPriority.value]

/-! ## C3 -/

/-- C3: `record_api_error` (source `_handle_api_error`) increments the
error counter by one and sets the cooldown end to `now` plus
`min(2^counter, 60)` minutes (counter taken after the increment); the
cooldown delta is capped at 60 minutes and non-decreasing in the counter,
and a fresh agent suffering three consecutive errors gets deltas of 2, 4
and 8 minutes; the counter is never decreased by this operation. -/
theorem c3_record_api_error_backoff (now : ℚ) (s : MgrState) :
    (handleApiError now s).api_error_count = s.api_error_count + 1 ∧
    s.api_error_count < (handleApiError now s).api_error_count ∧
    (handleApiError now s).api_cooldown
      = some (now + (min (2 ^ (s.api_error_count + 1)) 60 : ℕ) * 60) ∧
    (min (2 ^ (s.api_error_count + 1)) 60 : ℕ) ≤ 60 ∧
    (min (2 ^ (s.api_error_count + 1)) 60 : ℕ) ≤ min (2 ^ (s.api_error_count + 2)) 60 ∧
    (s.api_error_count = 0 → ∀ n1 n2 n3 : ℚ,
      (handleApiError n1 s).api_cooldown = some (n1 + 2 * 60) ∧
      (handleApiError n2 (handleApiError n1 s)).api_cooldown = some (n2 + 4 * 60) ∧
      (handleApiError n3 (handleApiError n2 (handleApiError n1 s))).api_cooldown
        = some (n3 + 8 * 60)) := by
  refine ⟨rfl, Nat.lt_succ_self _, rfl, min_le_right _ _, ?_, ?_⟩
  · exact min_le_min (Nat.pow_le_pow_right (by norm_num) (by omega)) le_rfl
  · intro h0 n1 n2 n3
    refine ⟨?_, ?_, ?_⟩ <;> norm_num [handleApiError, h0]

/-- Witness for C3 at the fresh manager state and concrete times. -/
theorem c3_record_api_error_backoff_witness :
    (handleApiError 0 {}).api_error_count = ({} : MgrState).api_error_count + 1 ∧
    (handleApiError 100 {}).api_cooldown = some (100 + 2 * 60) ∧
    (handleApiError 200 (handleApiError 100 {})).api_cooldown = some (200 + 4 * 60) ∧
    (handleApiError 300 (handleApiError 200 (handleApiError 100 {}))).api_cooldown
      = some (300 + 8 * 60) := by
  have h := c3_record_api_error_backoff 0 {}
  have h' := (c3_record_api_error_backoff 100 {}).2.2.2.2.2 rfl 100 200 300
  exact ⟨h.1, h'.1, h'.2.1, h'.2.2⟩

/-! ## C8 -/

/-- C8 counterexample: the claim says every mood update keeps every
component within its declared bounds.  The `mood_event` arm of
`AgentManager.process_agent_event` applies the event's mood dict with a
plain `dict.update`, no clamping: from the in-bounds mood
`(0, 0, 1/2)`, a mood event carrying `valence = 5` leaves the vector out
of bounds. -/
theorem c8_mood_event_escapes_bounds :
    moodInBounds { valence := 0, arousal := 0, dominance := 1/2 } ∧
    ¬ moodInBounds
        (moodEventUpdate { valence := 0, arousal := 0, dominance := 1/2 }
          (some 5) none none) := by
  constructor
  · norm_num [moodInBounds]
  · norm_num [moodInBounds, moodEventUpdate]

/-- C8 amended: updates that go through `Agent.update_mood` (the v1
clamping path) always land in bounds — valence in `[-1, 1]`, arousal and
dominance in `[0, 1]` — after every call, whatever the deltas and the
starting vector; the `mood_event` dict-update path of
`AgentManager.process_agent_event` performs no clamping and can leave a
component out of bounds. -/
theorem c8_update_mood_always_in_bounds (m : Mood) (v a d : ℚ) :
    moodInBounds (update_mood m v a d) := by
  unfold update_mood moodInBounds
  refine ⟨le_max_left _ _, ?_, le_max_left _ _, ?_, le_max_left _ _, ?_⟩ <;>
    exact max_le (by norm_num) (min_le_left _ _)

/-! ## C5 -/

/-- A listener that raises. -/
def boomListener : Listener := fun _ => .error "boom"

/-- A listener that returns normally. -/
def okListener : Listener := fun _ => .ok ()

/-- A plain event for the dispatch scenarios. -/
def tickEvent : Event := { type := "tick" }

/-- C5 counterexample: in `EventEngine._dispatch_event` there is no
`try`/`except` around the listener calls, so with the two listeners
`[boomListener, okListener]` the first one's exception aborts the `for`
loop (only 1 of the 2 listeners is invoked) and propagates into
`_process_events`, terminating the dispatch loop — contradicting the claim
that a raising listener never prevents the remaining listeners from
running and never terminates the loop. -/
theorem c5_engine_listener_exception_kills_loop :
    dispatchEvent [boomListener, okListener] tickEvent = .error "boom" ∧
    dispatchInvoked [boomListener, okListener] tickEvent = 1 ∧
    [boomListener, okListener].length = 2 ∧
    processEvents (fun _ => [boomListener, okListener])
      { event_queue := [tickEvent], scheduled_events := [], event_history := [] }
      = .error "boom" := by
  exact ⟨rfl, rfl, rfl, rfl⟩

/-- C5 amended: per-listener isolation holds only in the marionette
`EventRouter` — `_execute_handler` catches and logs each handler's
exception, every handler of an event is executed and the processing loop
survives every queue; in the puppet-engine-py `EventEngine`, a listener
that raises makes `_dispatch_event` propagate the exception at once (the
raising listener is the only one of the remaining list that was entered)
and the `_process_events` task dies with it. -/
theorem c5_listener_failure_semantics :
    (∀ (handlers : List Listener) (e : Event),
      (routerDispatchEvent handlers e).length = handlers.length) ∧
    (∀ (hf : String → List Listener) (q : List Event),
      (routerProcessEvents hf q).length = q.length) ∧
    (∀ (l : Listener) (ls : List Listener) (e : Event) (msg : String),
      l e = .error msg →
      dispatchEvent (l :: ls) e = .error msg ∧ dispatchInvoked (l :: ls) e = 1) ∧
    (∀ (lf : String → List Listener) (e : Event) (rest : List Event)
        (s : EventEngine) (msg : String),
      dispatchEvent (lf e.type) e = .error msg →
      processEventsGo lf (e :: rest) s = .error msg) := by
  refine ⟨fun handlers e => List.length_map _ _, fun hf q => ?_, ?_, ?_⟩
  · induction q with
    | nil => rfl
    | cons e rest ih => simp [routerProcessEvents, ih]
  · intro l ls e msg h
    constructor <;> simp [dispatchEvent, dispatchInvoked, h]
  · intro lf e rest s msg h
    simp [processEventsGo, h]

/-- Witness for C5's amended statement at concrete listeners and queue. -/
theorem c5_listener_failure_semantics_witness :
    (routerDispatchEvent [boomListener, okListener] tickEvent).length
      = [boomListener, okListener].length ∧
    (routerProcessEvents (fun _ => [boomListener]) [tickEvent, tickEvent]).length
      = [tickEvent, tickEvent].length ∧
    dispatchEvent (boomListener :: [okListener]) tickEvent = .error "boom" ∧
    dispatchInvoked (boomListener :: [okListener]) tickEvent = 1 ∧
    processEventsGo (fun _ => [boomListener]) [tickEvent]
      { event_queue := [tickEvent], scheduled_events := [], event_history := [] }
      = .error "boom" := by
  have h := c5_listener_failure_semantics
  have h3 := h.2.2.1 boomListener [okListener] tickEvent "boom" rfl
  exact ⟨h.1 _ _, h.2.1 _ _, h3.1, h3.2,
    h.2.2.2 (fun _ => [boomListener]) tickEvent [] _ "boom" rfl⟩

/-! ## C4 and C10 : inbound-interaction dedup -/

/-- Once an id is in `processed_tweet_ids`, `process_agent_reaction` is a
no-op on it, whatever the collaborator wiring and failure injection. -/
theorem processAgentReaction_seen (env : ReactionEnv) (t : String) (s : MgrState)
    (h : t ∈ s.processed_tweet_ids) :
    processAgentReaction env (some t) s = s := by
  unfold processAgentReaction
  split
  · rfl
  · simp [h]

/-- A fresh, truthy id is inserted into `processed_tweet_ids` by
`process_agent_reaction` before any collaborator call, on every branch of
the wiring and failure injection. -/
theorem processAgentReaction_marks (env : ReactionEnv) (t : String) (s : MgrState)
    (hex : env.agent_exists = true) (hact : env.is_active = true) (ht : ¬ t = "") :
    t ∈ (processAgentReaction env (some t) s).processed_tweet_ids := by
  unfold processAgentReaction
  by_cases hmem : t ∈ s.processed_tweet_ids
  · simp [hex, hact, hmem]
  · simp only [hex, hact, Bool.true_eq_false, or_self, if_false, ite_false, ht, hmem,
      false_or, if_neg, not_false_iff]
    split <;> try simp [List.mem_insert_iff]
    split <;> try simp [List.mem_insert_iff]
    split <;> try simp [List.mem_insert_iff]
    split <;> try simp [List.mem_insert_iff]
    split <;> simp [List.mem_insert_iff]

/-- C4: with the agent present and active, an LLM provider and a Twitter
client wired and neither collaborator failing, processing a fresh
interaction id performs exactly one LLM generation and one posting call,
and a second (and any later) invocation with the same id is a no-op — the
two calls together still account for exactly one generation and one post,
and an id recorded in the dedup set is never processed again. -/
theorem c4_reaction_dedup_idempotent (env : ReactionEnv) (t : String) (s : MgrState)
    (hex : env.agent_exists = true) (hact : env.is_active = true)
    (hllm : env.has_llm = true) (htw : env.has_twitter = true)
    (hg : env.gen_fails = false) (hp : env.post_fails = false)
    (ht : ¬ t = "") (hnew : ¬ t ∈ s.processed_tweet_ids) :
    processAgentReaction env (some t) (processAgentReaction env (some t) s)
      = processAgentReaction env (some t) s ∧
    (processAgentReaction env (some t) s).llm_calls = s.llm_calls + 1 ∧
    (processAgentReaction env (some t) s).post_calls = s.post_calls + 1 ∧
    (∀ s' : MgrState, t ∈ s'.processed_tweet_ids →
      processAgentReaction env (some t) s' = s') := by
  refine ⟨processAgentReaction_seen env t _
      (processAgentReaction_marks env t s hex hact ht), ?_, ?_, fun s' h => processAgentReaction_seen env t s' h⟩ <;>
    unfold processAgentReaction <;>
    simp [hex, hact, hllm, htw, hg, hp, ht, hnew] <;>
    split <;> simp

/-- Witness for C4 at the default wiring, a fresh state and id "tw1". -/
theorem c4_reaction_dedup_idempotent_witness :
    processAgentReaction {} (some "tw1") (processAgentReaction {} (some "tw1") {})
      = processAgentReaction {} (some "tw1") {} ∧
    (processAgentReaction {} (some "tw1") {}).llm_calls = ({} : MgrState).llm_calls + 1 ∧
    (processAgentReaction {} (some "tw1") {}).post_calls = ({} : MgrState).post_calls + 1 := by
  have h := c4_reaction_dedup_idempotent {} "tw1" {} rfl rfl rfl rfl rfl rfl
    (by simp) (by simp)
  exact ⟨h.1, h.2.1, h.2.2.1⟩

/-- C10: `process_agent_reaction` adds the interaction id to the dedup set
before generating or posting the reply, so for every wiring and failure
injection — including a raising `generate_tweet` or `post_tweet` — the id
ends up marked and a repeat invocation with the same id is a no-op: the
mark is never rolled back on error and the interaction is never retried. -/
theorem c10_mark_survives_failures (env : ReactionEnv) (t : String) (s : MgrState)
    (hex : env.agent_exists = true) (hact : env.is_active = true) (ht : ¬ t = "") :
    t ∈ (processAgentReaction env (some t) s).processed_tweet_ids ∧
    processAgentReaction env (some t) (processAgentReaction env (some t) s)
      = processAgentReaction env (some t) s := by
  refine ⟨processAgentReaction_marks env t s hex hact ht,
    processAgentReaction_seen env t _ (processAgentReaction_marks env t s hex hact ht)⟩

/-- Witness for C10: reply generation raises, yet the id stays marked and
the retry is a no-op. -/
theorem c10_mark_survives_failures_witness :
    "tw9" ∈ (processAgentReaction { gen_fails := true } (some "tw9") {}).processed_tweet_ids ∧
    processAgentReaction { gen_fails := true } (some "tw9")
        (processAgentReaction { gen_fails := true } (some "tw9") {})
      = processAgentReaction { gen_fails := true } (some "tw9") {} := by
  exact c10_mark_survives_failures { gen_fails := true } "tw9" {} rfl rfl (by simp)

/-! ## C2 : promotion correctness -/

theorem promoteReady_queue (l : List Event) : ∀ s : EventEngine,
    (promoteReady s l).event_queue = s.event_queue ++ l := by
  induction l with
  | nil => intro s; simp [promoteReady]
  | cons e rest ih =>
    intro s
    have hstep : promoteReady s (e :: rest)
        = promoteReady
            { s with event_queue := s.event_queue ++ [e]
                     scheduled_events := s.scheduled_events.erase e } rest := rfl
    rw [hstep, ih]
    simp

theorem promoteReady_history (l : List Event) : ∀ s : EventEngine,
    (promoteReady s l).event_history = s.event_history := by
  induction l with
  | nil => intro s; rfl
  | cons e rest ih =>
    intro s
    have hstep : promoteReady s (e :: rest)
        = promoteReady
            { s with event_queue := s.event_queue ++ [e]
                     scheduled_events := s.scheduled_events.erase e } rest := rfl
    rw [hstep, ih]

theorem checkScheduledOnce_queue (now : ℚ) (s : EventEngine) :
    (checkScheduledOnce now s).event_queue
      = s.event_queue ++ s.scheduled_events.filter (isDue now) := by
  unfold checkScheduledOnce
  exact promoteReady_queue _ s

theorem checkScheduledOnce_history (now : ℚ) (s : EventEngine) :
    (checkScheduledOnce now s).event_history = s.event_history := by
  unfold checkScheduledOnce
  exact promoteReady_history _ s

theorem recordHistory_mem (s : EventEngine) (e x : Event)
    (h : x ∈ (recordHistory s e).event_history) :
    x ∈ s.event_history ∨ x = e := by
  simp only [recordHistory] at h
  have h' : x ∈ s.event_history ++ [e] := by
    split at h
    · exact List.drop_subset _ _ h
    · exact h
  rcases List.mem_append.mp h' with h'' | h''
  · exact Or.inl h''
  · exact Or.inr (by simpa using h'')

/-- One step of the absence invariant: an event with a strictly future
`scheduled_for` that is absent from the live queue and the history stays
absent under any bus operation that is not an explicit `queue_event` of it
and whose promotion check (if any) happens before the due time. -/
theorem applyOp_keeps_absent (e : Event) (t : ℚ) (he : e.scheduled_for = some t)
    (s : EventEngine) (op : BusOp)
    (hq : op ≠ BusOp.queue e) (hc : ∀ now : ℚ, op = BusOp.check now → now < t)
    (h1 : ¬ e ∈ s.event_queue) (h2 : ¬ e ∈ s.event_history) :
    ¬ e ∈ (applyOp s op).event_queue ∧ ¬ e ∈ (applyOp s op).event_history := by
  cases op with
  | queue e' =>
    refine ⟨?_, h2⟩
    intro hmem
    rcases List.mem_append.mp hmem with h | h
    · exact h1 h
    · exact hq (by simp_all)
  | schedule e' => exact ⟨h1, h2⟩
  | check now =>
    have hlt : now < t := hc now rfl
    constructor
    · rw [applyOp, checkScheduledOnce_queue]
      intro hmem
      rcases List.mem_append.mp hmem with h | h
      · exact h1 h
      · have hdue : isDue now e = true := (List.mem_filter.mp h).2
        rw [isDue, he] at hdue
        exact absurd (of_decide_eq_true hdue) (not_le.mpr hlt)
    · rw [applyOp, checkScheduledOnce_history]
      exact h2
  | pop =>
    rw [applyOp]
    cases hqe : s.event_queue with
    | nil => exact ⟨by rw [hqe] at h1 ⊢; exact h1, h2⟩
    | cons e0 rest =>
      rw [hqe] at h1
      constructor
      · intro hmem
        exact h1 (List.mem_cons_of_mem e0 hmem)
      · intro hmem
        rcases recordHistory_mem _ e0 e hmem with h | h
        · exact h2 h
        · exact h1 (h ▸ List.mem_cons_self e0 rest)

/-- The absence invariant over a whole trace of bus operations. -/
theorem trace_keeps_absent (e : Event) (t : ℚ) (he : e.scheduled_for = some t) :
    ∀ (ops : List BusOp) (s0 : EventEngine),
    ¬ BusOp.queue e ∈ ops → (∀ now : ℚ, BusOp.check now ∈ ops → now < t) →
    ¬ e ∈ s0.event_queue → ¬ e ∈ s0.event_history →
    ¬ e ∈ (ops.foldl applyOp s0).event_queue ∧
      ¬ e ∈ (ops.foldl applyOp s0).event_history := by
  intro ops
  induction ops with
  | nil => intro s0 _ _ h1 h2; exact ⟨h1, h2⟩
  | cons op rest ih =>
    intro s0 hq hc h1 h2
    have hop : op ≠ BusOp.queue e := by
      intro h
      exact hq (h ▸ List.mem_cons_self op rest)
    have step := applyOp_keeps_absent e t he s0 op hop
      (fun now h => hc now (h ▸ List.mem_cons_self op rest)) h1 h2
    exact ih (applyOp s0 op)
      (fun h => hq (List.mem_cons_of_mem op h))
      (fun now h => hc now (List.mem_cons_of_mem op h))
      step.1 step.2

/-- C2: an event handed to `schedule_event` with `scheduled_for = t` is
never in the live dispatch queue — and hence never recorded as dispatched
— after any trace of bus operations all of whose promotion-loop
iterations run strictly before `t` (and which never hands the same event
to `queue_event` directly); conversely one iteration of
`_check_scheduled_events` at a time `now ≥ t` moves every such pending
event into the live queue. -/
theorem c2_scheduled_event_not_live_before_due (e : Event) (t : ℚ)
    (ops : List BusOp) (s0 : EventEngine)
    (he : e.scheduled_for = some t)
    (hq : ¬ BusOp.queue e ∈ ops)
    (hc : ∀ now : ℚ, BusOp.check now ∈ ops → now < t)
    (h0q : ¬ e ∈ s0.event_queue) (h0h : ¬ e ∈ s0.event_history) :
    (¬ e ∈ (ops.foldl applyOp s0).event_queue ∧
      ¬ e ∈ (ops.foldl applyOp s0).event_history) ∧
    (∀ (now : ℚ) (s : EventEngine), t ≤ now → e ∈ s.scheduled_events →
      e ∈ (checkScheduledOnce now s).event_queue) := by
  refine ⟨trace_keeps_absent e t he ops s0 hq hc h0q h0h, ?_⟩
  intro now s hnow hmem
  rw [checkScheduledOnce_queue]
  refine List.mem_append.mpr (Or.inr (List.mem_filter.mpr ⟨hmem, ?_⟩))
  rw [isDue, he]
  exact decide_eq_true hnow

/-- An event scheduled for time 10. -/
def futureEvent : Event := { type := "tick", scheduled_for := some 10 }

/-- Witness for C2: schedule `futureEvent` (due at 10) on the empty bus,
run a promotion iteration at time 5 and a dispatch pop — the event is in
neither the live queue nor the history; a promotion iteration at time 12
with the event pending does move it into the live queue. -/
theorem c2_scheduled_event_not_live_before_due_witness :
    (¬ futureEvent ∈
        (([BusOp.schedule futureEvent, BusOp.check 5, BusOp.pop]).foldl applyOp
          { event_queue := [], scheduled_events := [], event_history := [] }).event_queue ∧
      ¬ futureEvent ∈
        (([BusOp.schedule futureEvent, BusOp.check 5, BusOp.pop]).foldl applyOp
          { event_queue := [], scheduled_events := [], event_history := [] }).event_history) ∧
    futureEvent ∈
      (checkScheduledOnce 12
        { event_queue := [], scheduled_events := [futureEvent],
          event_history := [] }).event_queue := by
  have h := c2_scheduled_event_not_live_before_due futureEvent 10
    [BusOp.schedule futureEvent, BusOp.check 5, BusOp.pop]
    { event_queue := [], scheduled_events := [], event_history := [] }
    rfl (by simp) ?_ (by simp) (by simp)
  · exact ⟨h.1, h.2 12 _ (by norm_num) (by simp)⟩
  · intro now hnow
    simp only [List.mem_cons, List.not_mem_nil, or_false] at hnow
    rcases hnow with h1 | h1 | h1
    · exact absurd h1 (by simp)
    · injection h1 with h2
      subst h2
      norm_num
    · exact absurd h1 (by simp)

/-! ## C6, C7, C9 : scheduler -/

theorem floor_delay_lower (m : ℤ) (delay : ℚ) (h : (m : ℚ) ≤ delay) :
    (m : ℚ) * 3600 ≤ ((⌊delay * 3600⌋ : ℤ) : ℚ) := by
  have h1 : ((m * 3600 : ℤ) : ℚ) ≤ delay * 3600 := by
    push_cast
    nlinarith
  have h2 : (m * 3600 : ℤ) ≤ ⌊delay * 3600⌋ := Int.le_floor.mpr h1
  calc (m : ℚ) * 3600 = ((m * 3600 : ℤ) : ℚ) := by push_cast; ring
    _ ≤ ((⌊delay * 3600⌋ : ℤ) : ℚ) := by exact_mod_cast h2

theorem floor_delay_upper (m : ℤ) (delay : ℚ) (h : delay ≤ (m : ℚ)) :
    ((⌊delay * 3600⌋ : ℤ) : ℚ) ≤ (m : ℚ) * 3600 :=
  le_trans (Int.floor_le _) (mul_le_mul_of_nonneg_right h (by norm_num))

/-- C6: the scheduler's `schedule_next_post` entry point
(`schedule_agent_posts`, which performs the activity and cooldown gating
before delegating to `schedule_next_post`): a missing or inactive agent is
a no-op; with a recorded last post closer than `min_hours_between_posts`
it is a no-op; otherwise, for any sampled delay in `[min_hours,
max_hours]`, it sets `next_post_time = now + delay` (the delay truncated
to whole seconds) and passes exactly one `agent_post` event for that time
to the Event Bus, with `now + min_hours ≤ next_post_time ≤ now +
max_hours`. -/
theorem c6_schedule_next_post_contract :
    (∀ (agentId : String) (now delay : ℚ) (hasEngine : Bool) (s : MgrState),
      scheduleAgentPosts none agentId now delay hasEngine s = s) ∧
    (∀ (a : AgentConfig) (agentId : String) (now delay : ℚ) (hasEngine : Bool)
        (s : MgrState),
      a.is_active = false →
      scheduleAgentPosts (some a) agentId now delay hasEngine s = s) ∧
    (∀ (a : AgentConfig) (agentId : String) (now delay lastPost : ℚ)
        (hasEngine : Bool) (s : MgrState),
      s.last_post_time = some lastPost →
      now - lastPost < (a.min_hours_between_posts : ℚ) * 3600 →
      scheduleAgentPosts (some a) agentId now delay hasEngine s = s) ∧
    (∀ (a : AgentConfig) (agentId : String) (now delay : ℚ) (s : MgrState),
      a.is_active = true →
      (∀ lastPost : ℚ, s.last_post_time = some lastPost →
        (a.min_hours_between_posts : ℚ) * 3600 ≤ now - lastPost) →
      (a.min_hours_between_posts : ℚ) ≤ delay →
      delay ≤ (a.max_hours_between_posts : ℚ) →
      (scheduleAgentPosts (some a) agentId now delay true s).next_post_time
        = some (now + ((⌊delay * 3600⌋ : ℤ) : ℚ)) ∧
      (scheduleAgentPosts (some a) agentId now delay true s).scheduled_events
        = s.scheduled_events ++
          [{ type := "agent_post", agent_id := some agentId,
             scheduled_for := some (now + ((⌊delay * 3600⌋ : ℤ) : ℚ)) }] ∧
      now + (a.min_hours_between_posts : ℚ) * 3600
        ≤ now + ((⌊delay * 3600⌋ : ℤ) : ℚ) ∧
      now + ((⌊delay * 3600⌋ : ℤ) : ℚ)
        ≤ now + (a.max_hours_between_posts : ℚ) * 3600) := by
  refine ⟨fun agentId now delay hasEngine s => rfl, ?_, ?_, ?_⟩
  · intro a agentId now delay hasEngine s hina
    simp [scheduleAgentPosts, hina]
  · intro a agentId now delay lastPost hasEngine s hlast hcd
    simp only [scheduleAgentPosts, hlast]
    by_cases hact : a.is_active = false
    · simp [hact]
    · simp [hact, hcd]
  · intro a agentId now delay s hact hfar hd1 hd2
    have hnext :
        (scheduleAgentPosts (some a) agentId now delay true s).next_post_time
          = some (now + ((⌊delay * 3600⌋ : ℤ) : ℚ)) ∧
        (scheduleAgentPosts (some a) agentId now delay true s).scheduled_events
          = s.scheduled_events ++
            [{ type := "agent_post", agent_id := some agentId,
               scheduled_for := some (now + ((⌊delay * 3600⌋ : ℤ) : ℚ)) }] := by
      cases hl : s.last_post_time with
      | none => simp [scheduleAgentPosts, hl, hact, scheduleNextPost]
      | some lp =>
        have hge := not_lt.mpr (hfar lp hl)
        simp [scheduleAgentPosts, hl, hact, hge, scheduleNextPost]
    exact ⟨hnext.1, hnext.2,
      add_le_add_left (floor_delay_lower _ delay hd1) now,
      add_le_add_left (floor_delay_upper _ delay hd2) now⟩

/-- Witness for C6: the spec's two-step scenario with `min_hours = 3`,
`max_hours = 12`.  At `now = 0` with `last_post_time = 0` the call is a
no-op; at `now = 14400` (4 hours later) with sampled delay 5 h it
schedules exactly one `agent_post` event between `now + 3 h` and
`now + 12 h`; a missing or inactive agent is a no-op. -/
theorem c6_schedule_next_post_contract_witness :
    scheduleAgentPosts none "a1" 0 5 true {} = {} ∧
    scheduleAgentPosts (some { is_active := false }) "a1" 0 5 true {} = {} ∧
    scheduleAgentPosts (some {}) "a1" 0 5 true { last_post_time := some 0 }
      = { last_post_time := some 0 } ∧
    (scheduleAgentPosts (some {}) "a1" 14400 5 true
        { last_post_time := some 0 }).next_post_time
      = some (14400 + ((⌊(5 : ℚ) * 3600⌋ : ℤ) : ℚ)) ∧
    (scheduleAgentPosts (some {}) "a1" 14400 5 true
        { last_post_time := some 0 }).scheduled_events
      = [{ type := "agent_post", agent_id := some "a1",
           scheduled_for := some (14400 + ((⌊(5 : ℚ) * 3600⌋ : ℤ) : ℚ)) }] ∧
    14400 + (((3 : ℤ) : ℚ)) * 3600 ≤ 14400 + ((⌊(5 : ℚ) * 3600⌋ : ℤ) : ℚ) ∧
    14400 + ((⌊(5 : ℚ) * 3600⌋ : ℤ) : ℚ) ≤ 14400 + (((12 : ℤ) : ℚ)) * 3600 := by
  have h := c6_schedule_next_post_contract
  have h4 := h.2.2.2 {} "a1" 14400 5 { last_post_time := some 0 } rfl
    (by
      intro lp hl
      injection hl with hl'
      subst hl'
      norm_num)
    (by norm_num) (by norm_num)
  exact ⟨h.1 "a1" 0 5 true {}, h.2.1 _ "a1" 0 5 true {} rfl,
    h.2.2.1 {} "a1" 0 5 0 true { last_post_time := some 0 } rfl (by norm_num),
    h4.1, by simpa using h4.2.1, by simpa using h4.2.2.1, by simpa using h4.2.2.2⟩

/-- C7 counterexample: the claim says `next_post_time ≥ last_post_time +
min_hours_between_posts` holds at every point where both are set.  Run the
default agent (min 3 h): schedule at time 0 with sampled delay 3 h
(`next_post_time = 10800`), then let the post fire successfully at
`now = 10800`: `create_agent_post` sets `last_post_time = 10800` and its
re-scheduling call no-ops (still inside the minimum spacing), so the stale
`next_post_time = 10800` violates `next ≥ last + 3 h`. -/
theorem c7_stale_next_after_post :
    (createAgentPost (some {}) "a1" {} 10800 7
        (scheduleAgentPosts (some {}) "a1" 0 3 true {})).last_post_time
      = some 10800 ∧
    (createAgentPost (some {}) "a1" {} 10800 7
        (scheduleAgentPosts (some {}) "a1" 0 3 true {})).next_post_time
      = some 10800 ∧
    ¬ ((10800 : ℚ) + ((({} : AgentConfig).min_hours_between_posts : ℤ) : ℚ) * 3600
        ≤ 10800) := by
  refine ⟨?_, ?_, by norm_num⟩ <;>
    norm_num [createAgentPost, scheduleAgentPosts, scheduleNextPost]

/-- C7 amended: each write of `next_post_time` performed by the scheduler
while a `last_post_time` is recorded does establish the spacing bound —
the written value is `now + delay ≥ last_post_time + min_hours` (given the
cooldown gate passed and the sampled delay is at least `min_hours`) — but
the bound is not an invariant of every reachable state: a successful post
updates `last_post_time` without rewriting `next_post_time` (see the
counterexample), so it only holds again after the next reschedule. -/
theorem c7_next_post_write_respects_spacing (a : AgentConfig) (agentId : String)
    (now delay lastPost : ℚ) (hasEngine : Bool) (s : MgrState)
    (hmin : 0 ≤ a.min_hours_between_posts)
    (hact : a.is_active = true)
    (hlast : s.last_post_time = some lastPost)
    (hcd : ¬ (now - lastPost < (a.min_hours_between_posts : ℚ) * 3600))
    (hdelay : (a.min_hours_between_posts : ℚ) ≤ delay) :
    (scheduleAgentPosts (some a) agentId now delay hasEngine s).next_post_time
      = some (now + ((⌊delay * 3600⌋ : ℤ) : ℚ)) ∧
    lastPost + (a.min_hours_between_posts : ℚ) * 3600
      ≤ now + ((⌊delay * 3600⌋ : ℤ) : ℚ) := by
  constructor
  · cases hasEngine <;>
      simp [scheduleAgentPosts, hlast, hact, hcd, scheduleNextPost]
  · have h1 : lastPost + (a.min_hours_between_posts : ℚ) * 3600 ≤ now := by
      have := not_lt.mp hcd
      linarith
    have hd0 : ((0 : ℤ) : ℚ) ≤ delay := by
      have hc : ((0 : ℤ) : ℚ) ≤ (a.min_hours_between_posts : ℚ) := by
        exact_mod_cast hmin
      linarith
    have h2 : (0 : ℚ) ≤ ((⌊delay * 3600⌋ : ℤ) : ℚ) := by
      have hb := floor_delay_lower 0 delay hd0
      simpa using hb
    linarith

/-- Witness for C7's amended statement: default agent (min 3 h), last post
at 0, rescheduling at `now = 20000 > 10800` with sampled delay 4 h. -/
theorem c7_next_post_write_respects_spacing_witness :
    (scheduleAgentPosts (some {}) "a1" 20000 4 true
        { last_post_time := some 0 }).next_post_time
      = some (20000 + ((⌊(4 : ℚ) * 3600⌋ : ℤ) : ℚ)) ∧
    (0 : ℚ) + ((({} : AgentConfig).min_hours_between_posts : ℤ) : ℚ) * 3600
      ≤ 20000 + ((⌊(4 : ℚ) * 3600⌋ : ℤ) : ℚ) := by
  exact c7_next_post_write_respects_spacing {} "a1" 20000 4 0 true
    { last_post_time := some 0 } (by norm_num) rfl rfl (by norm_num) (by norm_num)

/-- C9 counterexample: the claim says a failing LLM `generate` call, like
a failing posting call, results in `record_api_error`.  In
`create_agent_post` the `generate_tweet` call sits only inside the outer
`try`, whose `except` merely logs: with the LLM call raising, the state
after the call shows one LLM invocation but an unchanged error counter
and no cooldown. -/
theorem c9_llm_failure_not_recorded :
    createAgentPost (some {}) "a1" { gen_fails := true } 0 5 {}
      = { llm_calls := 1 } ∧
    ({ llm_calls := 1 } : MgrState).api_error_count
      = ({} : MgrState).api_error_count ∧
    ({ llm_calls := 1 } : MgrState).api_cooldown = none := by
  exact ⟨rfl, rfl, rfl⟩

/-- C9 amended: in `create_agent_post`, a posting failure invokes
`record_api_error` (error counter incremented, cooldown set) and does not
reschedule; an LLM generation failure is only caught and logged by the
outer handler — no `record_api_error`, no state change beyond the
attempted generation — and likewise does not reschedule.  The two
collaborator failures are therefore not treated uniformly. -/
theorem c9_failure_handling (a : AgentConfig) (agentId : String) (env : PostEnv)
    (now delay : ℚ) (s : MgrState)
    (hact : a.is_active = true) (hllm : env.has_llm = true)
    (htw : env.has_twitter = true) :
    (env.gen_fails = true →
      createAgentPost (some a) agentId env now delay s
        = { s with llm_calls := s.llm_calls + 1 }) ∧
    (env.gen_fails = false → env.post_fails = true →
      createAgentPost (some a) agentId env now delay s
        = handleApiError now
            { s with llm_calls := s.llm_calls + 1, post_calls := s.post_calls + 1 } ∧
      (createAgentPost (some a) agentId env now delay s).api_error_count
        = s.api_error_count + 1 ∧
      (createAgentPost (some a) agentId env now delay s).scheduled_events
        = s.scheduled_events ∧
      (createAgentPost (some a) agentId env now delay s).next_post_time
        = s.next_post_time) := by
  constructor
  · intro hg
    simp [createAgentPost, hact, hllm, hg]
  · intro hg hp
    refine ⟨?_, ?_, ?_, ?_⟩ <;>
      simp [createAgentPost, hact, hllm, htw, hg, hp, handleApiError]

/-- Witness for C9's amended statement: default agent and wiring, LLM
failure injected in one run and posting failure in the other. -/
theorem c9_failure_handling_witness :
    createAgentPost (some {}) "a1" { gen_fails := true } 0 5 {}
      = { llm_calls := 1 } ∧
    createAgentPost (some {}) "a1" { post_fails := true } 0 5 {}
      = handleApiError 0 { llm_calls := 1, post_calls := 1 } ∧
    (createAgentPost (some {}) "a1" { post_fails := true } 0 5 {}).api_error_count
      = 1 ∧
    (createAgentPost (some {}) "a1" { post_fails := true } 0 5 {}).scheduled_events
      = [] ∧
    (createAgentPost (some {}) "a1" { post_fails := true } 0 5 {}).next_post_time
      = none := by
  have h1 := c9_failure_handling {} "a1" { gen_fails := true } 0 5 {} rfl rfl rfl
  have h2 := (c9_failure_handling {} "a1" { post_fails := true } 0 5 {} rfl rfl rfl).2
    rfl rfl
  exact ⟨h1.1 rfl, h2.1, h2.2.1, h2.2.2.1, h2.2.2.2⟩

end PuppetEngine
